import Mathlib

/-!
Verification of the resilient RPC execution core of `solbot`
(`src/services/RPCService.js`, `src/services/BatchService.js`,
`src/workers/dataWorker.js`), shallowly embedded in Lean.

Times are modelled as natural-number milliseconds (`Date.now()` values).
JavaScript computes `now - t` with signed arithmetic; every comparison we
embed has the same truth value under truncated `Nat` subtraction whenever
the compared bound is positive (as all configured bounds are), since a
negative difference and a truncated-to-zero difference fall on the same
side of each test.
-/

namespace Solbot

instance {α β : Type} [DecidableEq α] [DecidableEq β] : DecidableEq (Except α β) := fun x y =>
  match x, y with
  | .ok a, .ok b => if h : a = b then .isTrue (by rw [h]) else .isFalse (by simp [h])
  | .error a, .error b => if h : a = b then .isTrue (by rw [h]) else .isFalse (by simp [h])
  | .ok _, .error _ => .isFalse (by simp)
  | .error _, .ok _ => .isFalse (by simp)

/-! ## Circuit breaker (`RPCService.js`, constructor + `_checkCircuitBreaker` + `_updateCircuitBreaker`) -/

/-- `circuitBreaker.failureThreshold` from the `RPCService` constructor. -/
def failureThreshold : Nat := 5

/-- `circuitBreaker.resetTimeout` (ms) from the `RPCService` constructor. -/
def resetTimeout : Nat := 30000

/-- The mutable fields of `this.circuitBreaker`. -/
structure CircuitBreaker where
  lastFailureTime : Nat
  failureCount : Nat
  isOpen : Bool
deriving DecidableEq, Repr

/-- Initial breaker state from the constructor:
`{ lastFailureTime: 0, failureCount: 0, isOpen: false }`. -/
def CircuitBreaker.init : CircuitBreaker := ⟨0, 0, false⟩

/-- `_checkCircuitBreaker()`: returns `true` when the breaker is closed; when
open, returns `true` (after resetting `isOpen` and `failureCount`) once
`now - lastFailureTime > resetTimeout`, and `false` otherwise. The returned
pair is (returned boolean, breaker state after the call). -/
def checkCircuitBreaker (cb : CircuitBreaker) (now : Nat) : Bool × CircuitBreaker :=
  if !cb.isOpen then
    (true, cb)
  else if now - cb.lastFailureTime > resetTimeout then
    (true, { cb with isOpen := false, failureCount := 0 })
  else
    (false, cb)

/-- `_updateCircuitBreaker(error)`: increments `failureCount`, stamps
`lastFailureTime`, and opens the breaker once the count reaches
`failureThreshold` (leaving `isOpen` unchanged otherwise). -/
def updateCircuitBreaker (cb : CircuitBreaker) (now : Nat) : CircuitBreaker :=
  let fc := cb.failureCount + 1
  { cb with
    failureCount := fc
    lastFailureTime := now
    isOpen := if fc ≥ failureThreshold then true else cb.isOpen }

/-- Outcome of one `executeRequest` call, as seen through the breaker. -/
inductive ReqResult where
  | circuitOpen
  | success
  | failure
deriving DecidableEq, Repr

/-- The breaker-relevant behaviour of one `executeRequest(method, ...args)`
call: the breaker is checked at time `tCheck`; if the check fails the call
throws `Circuit breaker is open` without touching any provider connection;
otherwise the provider connection method runs, and when it throws
(`providerFails = true`) the breaker is updated at time `tFail`.
Result components: (outcome, whether a provider connection method was
invoked, breaker state after the call). -/
def execRequestCB (cb : CircuitBreaker) (tCheck tFail : Nat) (providerFails : Bool) :
    ReqResult × Bool × CircuitBreaker :=
  match checkCircuitBreaker cb tCheck with
  | (false, cb1) => (.circuitOpen, false, cb1)
  | (true, cb1) =>
    if providerFails then
      (.failure, true, updateCircuitBreaker cb1 tFail)
    else
      (.success, true, cb1)

/-- Breaker state after a sequence of `executeRequest` calls whose provider
calls all fail, at the given times. -/
def runFailures (cb : CircuitBreaker) : List Nat → CircuitBreaker
  | [] => cb
  | t :: ts => runFailures (execRequestCB cb t t true).2.2 ts

/-- C1: any five consecutive failed `executeRequest` calls from the initial
state open the breaker, and then every call made while
`now - lastFailureTime ≤ resetTimeout` throws the circuit-open error
immediately, without invoking any provider connection method, and leaves
the breaker unchanged. -/
theorem C1_breaker_opens_and_fails_fast
    (ts : List Nat) (h5 : ts.length = 5)
    (now : Nat) (pf : Bool)
    (hnow : now - (runFailures CircuitBreaker.init ts).lastFailureTime ≤ resetTimeout) :
    (runFailures CircuitBreaker.init ts).isOpen = true ∧
    execRequestCB (runFailures CircuitBreaker.init ts) now now pf =
      (ReqResult.circuitOpen, false, runFailures CircuitBreaker.init ts) := by
  rcases ts with _ | ⟨t1, _ | ⟨t2, _ | ⟨t3, _ | ⟨t4, _ | ⟨t5, rest⟩⟩⟩⟩⟩ <;> simp at h5
  subst h5
  have hrun : runFailures CircuitBreaker.init [t1, t2, t3, t4, t5] =
      ⟨t5, 5, true⟩ := by
    simp [runFailures, execRequestCB, checkCircuitBreaker, updateCircuitBreaker,
      CircuitBreaker.init, failureThreshold]
  rw [hrun] at hnow ⊢
  refine ⟨rfl, ?_⟩
  have hle : now - t5 ≤ 30000 := by simpa [resetTimeout] using hnow
  have hlt : ¬ (30000 < now - t5) := by omega
  have h1 : checkCircuitBreaker ⟨t5, 5, true⟩ now = (false, ⟨t5, 5, true⟩) := by
    simp [checkCircuitBreaker, resetTimeout, hlt]
  simp [execRequestCB, h1]

/-- Witness for C1 at the concrete failure times 1..5 and a call at time 100. -/
theorem C1_breaker_opens_and_fails_fast_witness :
    (runFailures CircuitBreaker.init [1, 2, 3, 4, 5]).isOpen = true ∧
    execRequestCB (runFailures CircuitBreaker.init [1, 2, 3, 4, 5]) 100 100 true =
      (ReqResult.circuitOpen, false, runFailures CircuitBreaker.init [1, 2, 3, 4, 5]) :=
  C1_breaker_opens_and_fails_fast [1, 2, 3, 4, 5] (by decide) 100 true (by decide)

/-- C3 counterexample: breaker open with `failureCount = 5` and
`lastFailureTime = 0`; at `now = 30001` the reset timeout has elapsed, so the
probing call is permitted, and when the probe fails the resulting breaker
state has `failureCount = 1` and `isOpen = false` — the code does not return
to `OPEN` after one probe failure, contradicting the claim. -/
theorem C3_counterexample :
    execRequestCB ⟨0, 5, true⟩ 30001 30001 true =
      (ReqResult.failure, true, ⟨30001, 1, false⟩) ∧
    (execRequestCB ⟨0, 5, true⟩ 30001 30001 true).2.2.isOpen = false := by
  constructor <;> decide

/-- C3 amended: when the breaker is open and `resetTimeout` has elapsed, the
next call is permitted as a probing call (a provider connection method is
invoked); if the probe succeeds the breaker is closed with `failureCount = 0`;
if the probe fails the breaker stays closed with `failureCount = 1` — it does
not reopen until `failureThreshold` failures accumulate again. -/
theorem C3_half_open_probe
    (cb : CircuitBreaker) (now tFail : Nat) (pf : Bool)
    (hopen : cb.isOpen = true)
    (helapsed : now - cb.lastFailureTime > resetTimeout) :
    (execRequestCB cb now tFail pf).2.1 = true ∧
    (pf = false →
      execRequestCB cb now tFail pf =
        (ReqResult.success, true, { cb with isOpen := false, failureCount := 0 })) ∧
    (pf = true →
      execRequestCB cb now tFail pf =
        (ReqResult.failure, true,
          { cb with isOpen := false, failureCount := 1, lastFailureTime := tFail })) := by
  have h1 : checkCircuitBreaker cb now = (true, { cb with isOpen := false, failureCount := 0 }) := by
    simp [checkCircuitBreaker, hopen, helapsed]
  rcases pf with _ | _ <;>
    simp [execRequestCB, h1, updateCircuitBreaker, failureThreshold]

/-- Witness for C3 amended at a concrete open breaker after the timeout. -/
theorem C3_half_open_probe_witness :
    (execRequestCB ⟨0, 5, true⟩ 30001 30001 true).2.1 = true ∧
    execRequestCB ⟨0, 5, true⟩ 30001 30002 false =
      (ReqResult.success, true, ⟨0, 0, false⟩) :=
  ⟨(C3_half_open_probe ⟨0, 5, true⟩ 30001 30001 true rfl (by decide)).1,
   (C3_half_open_probe ⟨0, 5, true⟩ 30001 30002 false rfl (by decide)).2.1 rfl⟩

/-! ## Providers, rate limiting, selection
(`RPCService.js`: `_initializeProvider`, `_checkRateLimit`, `_getOptimalProvider`,
and the `provider.requestCount++` of the `executeRequest` success path) -/

/-- `provider.config.options.rateLimit` from `api.config.js`. -/
structure RateLimitConfig where
  maxRequests : Nat
  interval : Nat
deriving DecidableEq, Repr

/-- The mutable per-provider record built by `_initializeProvider` (the
`connection` handle is abstracted away; `lastRequest`, `requestCount` and
`isHealthy` are carried verbatim, together with the rate-limit config). -/
structure Provider where
  isHealthy : Bool
  lastRequest : Nat
  requestCount : Nat
  rateLimit : RateLimitConfig
deriving DecidableEq, Repr

/-- `_checkRateLimit(provider)`: inside the window
(`now - lastRequest < interval`) the call is disallowed once
`requestCount >= maxRequests`; otherwise the counter is reset and the window
restarted. Returns (returned boolean, provider state after the call). -/
def checkRateLimit (now : Nat) (p : Provider) : Bool × Provider :=
  if now - p.lastRequest < p.rateLimit.interval then
    if p.requestCount ≥ p.rateLimit.maxRequests then
      (false, p)
    else
      (true, p)
  else
    (true, { p with requestCount := 0, lastRequest := now })

/-- One admission attempt on a provider: the `_checkRateLimit` gate, and —
only when the admitted provider call then succeeds — the
`provider.requestCount++` that sits on the success path of `executeRequest`
(after the awaited connection call; a throwing call never reaches it).
`succeeds` says whether the provider call would succeed. -/
def admitRequest (now : Nat) (p : Provider) (succeeds : Bool) : Bool × Provider :=
  match checkRateLimit now p with
  | (true, p1) =>
    (true, if succeeds then { p1 with requestCount := p1.requestCount + 1 } else p1)
  | (false, p1) => (false, p1)

/-- Run a sequence of admission attempts, each given as (time, whether the
provider call would succeed). Result components: (number of admitted calls,
number of admitted calls that succeeded, final provider state). -/
def runAdmits (p : Provider) : List (Nat × Bool) → Nat × Nat × Provider
  | [] => (0, 0, p)
  | (t, b) :: es =>
    match admitRequest t p b with
    | (true, p1) =>
      ((runAdmits p1 es).1 + 1,
       (runAdmits p1 es).2.1 + (if b then 1 else 0),
       (runAdmits p1 es).2.2)
    | (false, p1) => runAdmits p1 es

/-- The two provider keys of `this.providers`. -/
inductive ProvName where
  | primary
  | fallback
deriving DecidableEq, Repr

/-- The other provider, as computed by
`this.currentProvider === 'primary' ? 'fallback' : 'primary'`. -/
def ProvName.other : ProvName → ProvName
  | .primary => .fallback
  | .fallback => .primary

/-- The provider-selection state of `RPCService`: both providers plus
`this.currentProvider`. -/
structure SelectorState where
  primary : Provider
  fallback : Provider
  currentProvider : ProvName
deriving DecidableEq, Repr

/-- `this.providers[name]`. -/
def SelectorState.get (s : SelectorState) : ProvName → Provider
  | .primary => s.primary
  | .fallback => s.fallback

/-- Store an updated provider record back under its key (JS mutates the
provider object in place). -/
def SelectorState.put (s : SelectorState) : ProvName → Provider → SelectorState
  | .primary, p => { s with primary := p }
  | .fallback, p => { s with fallback := p }

/-- One round of `_getOptimalProvider()`: try the current provider, then the
other one (switching `this.currentProvider` before returning it); `none`
models the both-unusable case, in which the code sleeps one second and
recurses. The `&&` short-circuit of the source means `_checkRateLimit` (and
its window-reset mutation) only runs on a healthy provider; `_checkRateLimit`
mutates nothing when it returns `false`, which the embedding mirrors by
discarding its state component exactly in those cases. -/
def getOptimalProviderStep (now : Nat) (s : SelectorState) :
    Option (Provider × SelectorState) :=
  let current := s.get s.currentProvider
  let currentCk := checkRateLimit now current
  if current.isHealthy && currentCk.1 then
    some (currentCk.2, s.put s.currentProvider currentCk.2)
  else
    let otherName := s.currentProvider.other
    let other := s.get otherName
    let otherCk := checkRateLimit now other
    if other.isHealthy && otherCk.1 then
      some (otherCk.2, { s.put otherName otherCk.2 with currentProvider := otherName })
    else
      none

theorem put_currentProvider (s : SelectorState) (n : ProvName) (p : Provider) :
    (s.put n p).currentProvider = s.currentProvider := by
  cases n <;> rfl

theorem checkRateLimit_isHealthy (now : Nat) (p : Provider) :
    (checkRateLimit now p).2.isHealthy = p.isHealthy := by
  simp only [checkRateLimit]
  split <;> [skip; rfl] <;> split <;> rfl

/-- C2: whenever `_getOptimalProvider` returns, the returned provider is
healthy and passed the rate-limit check that was run on it during selection;
the currently-preferred provider is examined first and returned (with the
preference unchanged) if usable, and otherwise the alternate provider is
returned with `this.currentProvider` switched to it. -/
theorem C2_optimal_provider_healthy_and_within_limit
    (now : Nat) (s : SelectorState) (p : Provider) (s1 : SelectorState)
    (h : getOptimalProviderStep now s = some (p, s1)) :
    p.isHealthy = true ∧
    (((s.get s.currentProvider).isHealthy && (checkRateLimit now (s.get s.currentProvider)).1) = true ∧
       p = (checkRateLimit now (s.get s.currentProvider)).2 ∧
       s1.currentProvider = s.currentProvider
     ∨
     ((s.get s.currentProvider).isHealthy && (checkRateLimit now (s.get s.currentProvider)).1) = false ∧
       ((s.get s.currentProvider.other).isHealthy &&
         (checkRateLimit now (s.get s.currentProvider.other)).1) = true ∧
       p = (checkRateLimit now (s.get s.currentProvider.other)).2 ∧
       s1.currentProvider = s.currentProvider.other) := by
  simp only [getOptimalProviderStep] at h
  by_cases hc : ((s.get s.currentProvider).isHealthy &&
      (checkRateLimit now (s.get s.currentProvider)).1) = true
  · rw [if_pos hc] at h
    obtain ⟨hp, hs⟩ := Prod.mk.injEq .. ▸ Option.some.injEq .. ▸ h
    constructor
    · rw [← hp, checkRateLimit_isHealthy]
      exact (Bool.and_eq_true ..).mp hc |>.1
    · refine Or.inl ⟨hc, hp.symm, ?_⟩
      rw [← hs, put_currentProvider]
  · rw [if_neg hc] at h
    by_cases ho : ((s.get s.currentProvider.other).isHealthy &&
        (checkRateLimit now (s.get s.currentProvider.other)).1) = true
    · rw [if_pos ho] at h
      obtain ⟨hp, hs⟩ := Prod.mk.injEq .. ▸ Option.some.injEq .. ▸ h
      constructor
      · rw [← hp, checkRateLimit_isHealthy]
        exact (Bool.and_eq_true ..).mp ho |>.1
      · refine Or.inr ⟨Bool.not_eq_true _ ▸ hc, ho, hp.symm, ?_⟩
        rw [← hs]
    · rw [if_neg ho] at h
      exact absurd h (by simp)

/-- Witness for C2: an unhealthy primary and a healthy fallback at time 0. -/
theorem C2_optimal_provider_healthy_and_within_limit_witness :
    getOptimalProviderStep 5 ⟨⟨false, 0, 0, ⟨50, 1000⟩⟩, ⟨true, 0, 3, ⟨30, 1000⟩⟩, .primary⟩ =
      some (⟨true, 0, 3, ⟨30, 1000⟩⟩,
        ⟨⟨false, 0, 0, ⟨50, 1000⟩⟩, ⟨true, 0, 3, ⟨30, 1000⟩⟩, .fallback⟩) ∧
    (⟨true, 0, 3, ⟨30, 1000⟩⟩ : Provider).isHealthy = true :=
  ⟨by decide,
   (C2_optimal_provider_healthy_and_within_limit 5
      ⟨⟨false, 0, 0, ⟨50, 1000⟩⟩, ⟨true, 0, 3, ⟨30, 1000⟩⟩, .primary⟩
      ⟨true, 0, 3, ⟨30, 1000⟩⟩
      ⟨⟨false, 0, 0, ⟨50, 1000⟩⟩, ⟨true, 0, 3, ⟨30, 1000⟩⟩, .fallback⟩
      (by decide)).1⟩

theorem runAdmits_fill (cfg : RateLimitConfig) (hB : Bool) (w : Nat) :
    ∀ (es : List (Nat × Bool)) (c : Nat),
      (∀ e ∈ es, e.1 - w < cfg.interval) →
      (∀ e ∈ es, e.2 = true) →
      c + es.length ≤ cfg.maxRequests →
      runAdmits ⟨hB, w, c, cfg⟩ es =
        (es.length, es.length, ⟨hB, w, c + es.length, cfg⟩)
  | [], c, _, _, _ => by simp [runAdmits]
  | (t, b) :: es, c, hw, hs, hle => by
    have hwin : t - w < cfg.interval := hw (t, b) (List.mem_cons_self ..)
    have hb : b = true := hs (t, b) (List.mem_cons_self ..)
    subst hb
    have hcnt : ¬ (c ≥ cfg.maxRequests) := by
      simp only [List.length_cons] at hle
      omega
    have hstep : admitRequest t ⟨hB, w, c, cfg⟩ true = (true, ⟨hB, w, c + 1, cfg⟩) := by
      simp [admitRequest, checkRateLimit, hwin, hcnt]
    have hrest := runAdmits_fill cfg hB w es (c + 1)
      (fun e he => hw e (List.mem_cons_of_mem _ he))
      (fun e he => hs e (List.mem_cons_of_mem _ he))
      (by simp only [List.length_cons] at hle; omega)
    have harith : c + 1 + es.length = c + (es.length + 1) := by omega
    simp only [runAdmits, hstep, hrest, List.length_cons, harith, if_true]

theorem runAdmits_window (cfg : RateLimitConfig) (hB : Bool) (w : Nat) :
    ∀ (es : List (Nat × Bool)) (c : Nat),
      (∀ e ∈ es, e.1 - w < cfg.interval) →
      c ≤ cfg.maxRequests →
      (runAdmits ⟨hB, w, c, cfg⟩ es).2.2 =
        ⟨hB, w, c + (runAdmits ⟨hB, w, c, cfg⟩ es).2.1, cfg⟩ ∧
      c + (runAdmits ⟨hB, w, c, cfg⟩ es).2.1 ≤ cfg.maxRequests
  | [], c, _, hc => by simpa [runAdmits] using hc
  | (t, b) :: es, c, hw, hc => by
    have hwin : t - w < cfg.interval := hw (t, b) (List.mem_cons_self ..)
    have hrest := fun c1 hc1 => runAdmits_window cfg hB w es c1
      (fun e he => hw e (List.mem_cons_of_mem _ he)) hc1
    by_cases hcm : c ≥ cfg.maxRequests
    · have hstep : admitRequest t ⟨hB, w, c, cfg⟩ b = (false, ⟨hB, w, c, cfg⟩) := by
        simp [admitRequest, checkRateLimit, hwin, hcm]
      simpa only [runAdmits, hstep] using hrest c hc
    · cases b with
      | true =>
        have hstep : admitRequest t ⟨hB, w, c, cfg⟩ true = (true, ⟨hB, w, c + 1, cfg⟩) := by
          simp [admitRequest, checkRateLimit, hwin, hcm]
        have h := hrest (c + 1) (by omega)
        simp only [runAdmits, hstep, if_true]
        refine ⟨?_, by omega⟩
        rw [h.1]
        have harith : c + 1 + (runAdmits ⟨hB, w, c + 1, cfg⟩ es).2.1 =
            c + ((runAdmits ⟨hB, w, c + 1, cfg⟩ es).2.1 + 1) := by omega
        rw [harith]
      | false =>
        have hstep : admitRequest t ⟨hB, w, c, cfg⟩ false = (true, ⟨hB, w, c, cfg⟩) := by
          simp [admitRequest, checkRateLimit, hwin, hcm]
        have h := hrest c hc
        simpa only [runAdmits, hstep, if_false, Nat.add_zero] using h

/-- C5 counterexample: with `maxRequests = 2` and a fresh window starting at
0, three in-window calls at times 1, 2, 3 — the second of which fails — are
all admitted (3 admitted calls, more than `maxRequests`), because only the
two successful calls reach the `provider.requestCount++` on the success path
of `executeRequest`; in particular the third ((maxRequests+1)-th) in-window
check still returns `true` and is not rejected, refuting the claimed window
bound. -/
theorem C5_rate_limit_counterexample :
    (runAdmits ⟨true, 0, 0, ⟨2, 1000⟩⟩ [(1, true), (2, false), (3, true)]).1 = 3 ∧
    checkRateLimit 3 (runAdmits ⟨true, 0, 0, ⟨2, 1000⟩⟩ [(1, true), (2, false)]).2.2 =
      (true, (runAdmits ⟨true, 0, 0, ⟨2, 1000⟩⟩ [(1, true), (2, false)]).2.2) ∧
    ¬ ((runAdmits ⟨true, 0, 0, ⟨2, 1000⟩⟩ [(1, true), (2, false), (3, true)]).1 ≤ 2) := by
  refine ⟨by decide, by decide, by decide⟩

/-- C5 amended: the rate-limit check resets the counter and restarts the
window when `now - windowStart ≥ interval`; otherwise it allows the call
exactly while the counter is strictly below `maxRequests`, and a disallowed
check returns `false` without mutating anything. The counter advances only on
admitted calls that complete successfully, so from a fresh window at `w` at
most `maxRequests` successful calls are admitted at in-window times
(admitted calls that fail advance nothing and are not bounded), and once
`maxRequests` in-window calls have succeeded any further check within the
window is rejected and leaves the provider state unchanged. -/
theorem C5_rate_limit_window
    (nowQ : Nat) (q : Provider) (hB : Bool) (w : Nat) (cfg : RateLimitConfig)
    (es ts : List (Nat × Bool)) (t : Nat)
    (hesWin : ∀ e ∈ es, e.1 - w < cfg.interval)
    (htsWin : ∀ e ∈ ts, e.1 - w < cfg.interval)
    (htsSucc : ∀ e ∈ ts, e.2 = true)
    (htsLen : ts.length = cfg.maxRequests)
    (ht : t - w < cfg.interval) :
    (q.rateLimit.interval ≤ nowQ - q.lastRequest →
      checkRateLimit nowQ q = (true, { q with requestCount := 0, lastRequest := nowQ })) ∧
    (nowQ - q.lastRequest < q.rateLimit.interval →
      checkRateLimit nowQ q = (decide (q.requestCount < q.rateLimit.maxRequests), q)) ∧
    ((checkRateLimit nowQ q).1 = false → (checkRateLimit nowQ q).2 = q) ∧
    (runAdmits ⟨hB, w, 0, cfg⟩ es).2.1 ≤ cfg.maxRequests ∧
    (runAdmits ⟨hB, w, 0, cfg⟩ ts).2.1 = cfg.maxRequests ∧
    checkRateLimit t (runAdmits ⟨hB, w, 0, cfg⟩ ts).2.2 =
      (false, (runAdmits ⟨hB, w, 0, cfg⟩ ts).2.2) := by
  have hrun := runAdmits_fill cfg hB w ts 0 htsWin htsSucc (by omega)
  refine ⟨?_, ?_, ?_, ?_, ?_, ?_⟩
  · intro hE
    have hni : ¬ (nowQ - q.lastRequest < q.rateLimit.interval) := by omega
    simp [checkRateLimit, hni]
  · intro hI
    by_cases hc : q.requestCount ≥ q.rateLimit.maxRequests <;>
      simp [checkRateLimit, hI, hc] <;> omega
  · intro hF
    simp only [checkRateLimit] at hF ⊢
    split at hF
    · split at hF <;> simp_all
    · simp_all
  · have h := runAdmits_window cfg hB w es 0 hesWin (by omega)
    omega
  · rw [hrun, htsLen]
  · rw [hrun]
    have : cfg.maxRequests ≥ cfg.maxRequests := le_refl _
    simp [checkRateLimit, ht, htsLen, this]

/-- Witness for C5 amended with a 2-request / 1000 ms window: a mixed
success-failure-success run admits at most 2 successfully, two successful
calls at times 1 and 2 fill the window, and a third check at time 3 is
rejected. -/
theorem C5_rate_limit_window_witness :
    checkRateLimit 1500 ⟨true, 0, 2, ⟨2, 1000⟩⟩ =
      (true, ⟨true, 1500, 0, ⟨2, 1000⟩⟩) ∧
    (runAdmits ⟨true, 0, 0, ⟨2, 1000⟩⟩ [(1, true), (2, false), (3, true)]).2.1 ≤ 2 ∧
    (runAdmits ⟨true, 0, 0, ⟨2, 1000⟩⟩ [(1, true), (2, true)]).2.1 = 2 ∧
    checkRateLimit 3 (runAdmits ⟨true, 0, 0, ⟨2, 1000⟩⟩ [(1, true), (2, true)]).2.2 =
      (false, (runAdmits ⟨true, 0, 0, ⟨2, 1000⟩⟩ [(1, true), (2, true)]).2.2) :=
  have h := C5_rate_limit_window 1500 ⟨true, 0, 2, ⟨2, 1000⟩⟩ true 0 ⟨2, 1000⟩
    [(1, true), (2, false), (3, true)] [(1, true), (2, true)] 3
    (by decide) (by decide) (by decide) (by decide) (by decide)
  ⟨by
      have := h.1 (by decide)
      simpa using this,
   h.2.2.2.1, h.2.2.2.2.1, h.2.2.2.2.2⟩

/-! ## Retry executor (`RPCService.js`: `executeRequestWithRetry`, `_shouldRetry`) -/

/-- JavaScript `String.prototype.includes`: substring containment. -/
def jsIncludes (s pat : String) : Bool :=
  decide (pat.toList <:+: s.toList)

/-- The `retryableErrors` list of `_shouldRetry`. -/
def retryableErrors : List String :=
  ["Connection refused", "timeout", "Too Many Requests", "Service Unavailable"]

/-- `_shouldRetry(error)`: the error message contains one of the retryable
message fragments. -/
def shouldRetry (message : String) : Bool :=
  retryableErrors.any (fun m => jsIncludes message m)

/-- The retry loop of `executeRequestWithRetry`, with the attempt outcomes
given by an oracle (`outcome k` is what attempt number `k` produces: the
resolved value, or the message of the error it throws — a timeout of the
race contributes the message `Request timeout`). `remaining` is
`maxRetries - attempt`. Result components: (what the call returns or
throws, total number of attempts made). Backoff delays do not affect the
embedded result and are omitted. -/
def retryLoop (outcome : Nat → Except String α) (attempt remaining : Nat) :
    Except String α × Nat :=
  match outcome attempt with
  | .ok v => (.ok v, attempt + 1)
  | .error e =>
    match remaining with
    | 0 => (.error e, attempt + 1)
    | r + 1 =>
      if shouldRetry e then
        retryLoop outcome (attempt + 1) r
      else
        (.error e, attempt + 1)

/-- `executeRequestWithRetry(method, ...args)` for a provider configured with
`maxRetries`: the loop `for (attempt = 0; attempt <= maxRetries; attempt++)`. -/
def executeRequestWithRetry (outcome : Nat → Except String α) (maxRetries : Nat) :
    Except String α × Nat :=
  retryLoop outcome 0 maxRetries

theorem retryLoop_nonretryable (outcome : Nat → Except String α) :
    ∀ (j attempt remaining : Nat) (e : String),
      j < remaining →
      (∀ i, i < j → ∃ ei, outcome (attempt + i) = .error ei ∧ shouldRetry ei = true) →
      outcome (attempt + j) = .error e →
      shouldRetry e = false →
      retryLoop outcome attempt remaining = (.error e, attempt + j + 1)
  | 0, attempt, remaining, e, hj, _, he, hnr => by
    obtain ⟨r, rfl⟩ : ∃ r, remaining = r + 1 := ⟨remaining - 1, by omega⟩
    simp only [Nat.add_zero] at he
    simp [retryLoop, he, hnr]
  | j + 1, attempt, remaining, e, hj, hpre, he, hnr => by
    obtain ⟨r, rfl⟩ : ∃ r, remaining = r + 1 := ⟨remaining - 1, by omega⟩
    obtain ⟨e0, he0, hre0⟩ := hpre 0 (Nat.succ_pos j)
    simp only [Nat.add_zero] at he0
    have hrec := retryLoop_nonretryable outcome j (attempt + 1) r e
      (by omega)
      (fun i hi => by
        obtain ⟨ei, hei, hrei⟩ := hpre (i + 1) (by omega)
        exact ⟨ei, by rw [show attempt + 1 + i = attempt + (i + 1) by omega]; exact hei, hrei⟩)
      (by rw [show attempt + 1 + j = attempt + (j + 1) by omega]; exact he)
      hnr
    rw [show retryLoop outcome attempt (r + 1) = retryLoop outcome (attempt + 1) r from by
      conv_lhs => rw [retryLoop]
      rw [he0]
      simp [hre0]]
    rw [hrec]
    congr 1
    omega

theorem retryLoop_exhausted (outcome : Nat → Except String α) :
    ∀ (remaining attempt : Nat) (e : String),
      (∀ i, i < remaining → ∃ ei, outcome (attempt + i) = .error ei ∧ shouldRetry ei = true) →
      outcome (attempt + remaining) = .error e →
      retryLoop outcome attempt remaining = (.error e, attempt + remaining + 1)
  | 0, attempt, e, _, he => by
    simp only [Nat.add_zero] at he
    simp [retryLoop, he]
  | r + 1, attempt, e, hpre, he => by
    obtain ⟨e0, he0, hre0⟩ := hpre 0 (Nat.succ_pos r)
    simp only [Nat.add_zero] at he0
    have hrec := retryLoop_exhausted outcome r (attempt + 1) e
      (fun i hi => by
        obtain ⟨ei, hei, hrei⟩ := hpre (i + 1) (by omega)
        exact ⟨ei, by rw [show attempt + 1 + i = attempt + (i + 1) by omega]; exact hei, hrei⟩)
      (by rw [show attempt + 1 + r = attempt + (r + 1) by omega]; exact he)
    rw [show retryLoop outcome attempt (r + 1) = retryLoop outcome (attempt + 1) r from by
      conv_lhs => rw [retryLoop]
      rw [he0]
      simp [hre0]]
    rw [hrec]
    congr 1
    omega

/-- C6: `_shouldRetry` classifies an error as retryable exactly when its
message contains `Connection refused`, `timeout`, `Too Many Requests`, or
`Service Unavailable`; a non-retryable error thrown at attempt `j < maxRetries`
is propagated after exactly `j + 1` attempts (no further attempt is made);
and if every attempt up to `maxRetries` fails with retryable errors, the error
of the last attempt is propagated after `maxRetries + 1` attempts, whatever
that last error is. -/
theorem C6_retry_classification_and_propagation :
    (∀ e : String, shouldRetry e =
      (jsIncludes e "Connection refused" || jsIncludes e "timeout" ||
       jsIncludes e "Too Many Requests" || jsIncludes e "Service Unavailable")) ∧
    (∀ (outcome : Nat → Except String Nat) (maxRetries j : Nat) (e : String),
      j < maxRetries →
      (∀ i, i < j → ∃ ei, outcome i = .error ei ∧ shouldRetry ei = true) →
      outcome j = .error e →
      shouldRetry e = false →
      executeRequestWithRetry outcome maxRetries = (.error e, j + 1)) ∧
    (∀ (outcome : Nat → Except String Nat) (maxRetries : Nat) (e : String),
      (∀ i, i < maxRetries → ∃ ei, outcome i = .error ei ∧ shouldRetry ei = true) →
      outcome maxRetries = .error e →
      executeRequestWithRetry outcome maxRetries = (.error e, maxRetries + 1)) := by
  refine ⟨?_, ?_, ?_⟩
  · intro e
    simp [shouldRetry, retryableErrors, Bool.or_assoc]
  · intro outcome maxRetries j e hj hpre he hnr
    have := retryLoop_nonretryable outcome j 0 maxRetries e hj
      (fun i hi => by simpa using hpre i hi) (by simpa using he) hnr
    simpa [executeRequestWithRetry] using this
  · intro outcome maxRetries e hpre he
    have := retryLoop_exhausted outcome maxRetries 0 e
      (fun i hi => by simpa using hpre i hi) (by simpa using he)
    simpa [executeRequestWithRetry] using this

/-- Attempt outcomes for the C6 witness: a retryable timeout on attempt 0,
then a non-retryable error on attempt 1. -/
def witnessOutcomes : Nat → Except String Nat := fun i =>
  if i = 0 then .error "Request timeout" else .error "Invalid params"

/-- Witness for C6: the non-retryable error of attempt 1 is propagated after
exactly 2 attempts out of a budget of `maxRetries = 3`. -/
theorem C6_retry_classification_and_propagation_witness :
    executeRequestWithRetry witnessOutcomes 3 = (.error "Invalid params", 2) :=
  C6_retry_classification_and_propagation.2.1 witnessOutcomes 3 1 "Invalid params"
    (by decide)
    (fun i hi => ⟨"Request timeout", by
      interval_cases i
      exact ⟨rfl, by decide⟩⟩)
    rfl
    (by decide)

/-! ## Response cache (`RPCService.js`: constructor cache, `_getCachedData`,
`_setCacheData`, `getBlock`, `getTransaction`) -/

/-- `this.cacheTimeout` (ms) from the constructor, also the cache `maxAge`. -/
def cacheTimeout : Nat := 60000

/-- A JavaScript value as returned by `getBlock`/`getTransaction`: either
`null` (falsy — e.g. `getTransaction` of an unknown signature resolves to
`null`) or a non-null object (truthy). -/
inductive JsVal where
  | vnull
  | vobj (data : Nat)
deriving DecidableEq, Repr

/-- JavaScript truthiness of a `JsVal`. -/
def JsVal.truthy : JsVal → Bool
  | .vnull => false
  | .vobj _ => true

/-- One cache entry: the stored value and its insertion time (the LRU cache
stamps `Date.now()` on `set`). -/
structure CacheEntry where
  value : JsVal
  insertedAt : Nat
deriving DecidableEq, Repr

/-- The cache contents, keyed by the string cache key. Capacity-pressure
eviction (`max: 500`) is outside the scope of the TTL claims and is not
modelled. -/
def CacheMap := List (String × CacheEntry)

/-- `_getCachedData(key)`, i.e. `this.cache.get(key)`: returns the stored
value unless the entry is absent or stale (`now - insertedAt > maxAge`),
where `maxAge = cacheTimeout`. -/
def cacheGet (c : CacheMap) (key : String) (now : Nat) : Option JsVal :=
  match List.lookup key c with
  | some entry => if now - entry.insertedAt > cacheTimeout then none else some entry.value
  | none => none

/-- `_setCacheData(key, data)`, i.e. `this.cache.set(key, data)`: stores the
value under the key with the current time. -/
def cacheSet (c : CacheMap) (key : String) (v : JsVal) (now : Nat) : CacheMap :=
  (key, ⟨v, now⟩) :: List.filter (fun kv => !(kv.1 == key)) c

/-- The shared body of `getBlock(slot)` and `getTransaction(signature)`:
build the cache key from the method's key pre-tag and the argument, return
the cached value when `if (cached)` passes its truthiness test, and
otherwise run the live path — `executeRequestWithRetry`, whose outcome the
oracle `live` supplies — caching the result only on success. Result
components: (what the method returns or throws, cache afterwards, whether
the live path was invoked). -/
def cachedFetch (c : CacheMap) (keyTag arg : String) (now : Nat)
    (live : Except String JsVal) : Except String JsVal × CacheMap × Bool :=
  let key := keyTag ++ arg
  match cacheGet c key now with
  | some v =>
    if v.truthy then
      (.ok v, c, false)
    else
      match live with
      | .ok w => (.ok w, cacheSet c key w now, true)
      | .error e => (.error e, c, true)
  | none =>
    match live with
    | .ok w => (.ok w, cacheSet c key w now, true)
    | .error e => (.error e, c, true)

/-- `getBlock(slot)` (the key is `block:` + slot). -/
def getBlock (c : CacheMap) (slot : String) (now : Nat) (live : Except String JsVal) :
    Except String JsVal × CacheMap × Bool :=
  cachedFetch c "block:" slot now live

/-- `getTransaction(signature)` (the key is `tx:` + signature). -/
def getTransaction (c : CacheMap) (signature : String) (now : Nat)
    (live : Except String JsVal) : Except String JsVal × CacheMap × Bool :=
  cachedFetch c "tx:" signature now live

/-- C7 counterexample: the key `tx:sig1` holds a cached `null` inserted at
time 0; a `getTransaction` at time 1000 — well before the 60-second TTL —
finds the fresh entry, yet `if (cached)` rejects the falsy value, the live
path is invoked (third component `true`) and its result, not the cached
value, is returned. This refutes the claim that every get on a cached key
issued before the TTL elapses returns the cached value without invoking the
live path. -/
theorem C7_counterexample :
    cacheGet [("tx:sig1", ⟨.vnull, 0⟩)] "tx:sig1" 1000 = some .vnull ∧
    1000 - 0 < cacheTimeout ∧
    getTransaction [("tx:sig1", ⟨.vnull, 0⟩)] "sig1" 1000 (.ok (.vobj 7)) =
      (.ok (.vobj 7), [("tx:sig1", ⟨.vobj 7, 1000⟩)], true) :=
  ⟨by decide, by decide, rfl⟩

/-- C7 amended: for a key cached with a truthy (non-null) value, a get issued
before the TTL elapses returns the cached value, leaves the cache unchanged
and does not invoke the live path; after the TTL elapses the entry is treated
as absent and the live path runs; and a value whose production fails is never
stored (the cache is unchanged whenever the live outcome is an error). A
cached falsy value (`null`) is treated as a miss and the live path re-runs. -/
theorem C7_cache_ttl
    (c : CacheMap) (keyTag arg : String) (v : JsVal) (t now : Nat)
    (live : Except String JsVal) (e : String)
    (hentry : List.lookup (keyTag ++ arg) c = some ⟨v, t⟩) :
    (now - t ≤ cacheTimeout → v.truthy = true →
      cachedFetch c keyTag arg now live = (.ok v, c, false)) ∧
    (cacheTimeout < now - t →
      cacheGet c (keyTag ++ arg) now = none ∧
      (cachedFetch c keyTag arg now live).2.2 = true) ∧
    (cachedFetch c keyTag arg now (.error e)).2.1 = c := by
  refine ⟨?_, ?_, ?_⟩
  · intro hfresh htruthy
    have hns : ¬ (now - t > cacheTimeout) := by omega
    simp [cachedFetch, cacheGet, hentry, hns, htruthy]
  · intro hstale
    have hget : cacheGet c (keyTag ++ arg) now = none := by
      simp [cacheGet, hentry, hstale]
    refine ⟨hget, ?_⟩
    simp only [cachedFetch, hget]
    cases live <;> simp
  · simp only [cachedFetch]
    cases hget : cacheGet c (keyTag ++ arg) now with
    | none => simp
    | some w => cases hw : w.truthy <;> simp [hw]

/-- Witness for C7 amended: a truthy entry inserted at time 0 is served at
time 1000 without the live path, treated as absent at time 70000, and an
erroring live path at 70000 leaves the cache unchanged. -/
theorem C7_cache_ttl_witness :
    cachedFetch [("tx:sig1", ⟨.vobj 5, 0⟩)] "tx:" "sig1" 1000 (.ok (.vobj 9)) =
      (.ok (.vobj 5), [("tx:sig1", ⟨.vobj 5, 0⟩)], false) ∧
    cacheGet [("tx:sig1", ⟨.vobj 5, 0⟩)] "tx:sig1" 70000 = none ∧
    (cachedFetch [("tx:sig1", ⟨.vobj 5, 0⟩)] "tx:" "sig1" 70000 (.error "timeout")).2.1 =
      [("tx:sig1", ⟨.vobj 5, 0⟩)] :=
  have h1000 := C7_cache_ttl [("tx:sig1", ⟨.vobj 5, 0⟩)] "tx:" "sig1" (.vobj 5) 0 1000
    (.ok (.vobj 9)) "timeout" (by decide)
  have h70000 := C7_cache_ttl [("tx:sig1", ⟨.vobj 5, 0⟩)] "tx:" "sig1" (.vobj 5) 0 70000
    (.error "timeout") "timeout" (by decide)
  ⟨h1000.1 (by decide) (by decide), (h70000.2.1 (by decide)).1, h70000.2.2⟩

/-! ## Batch fan-out (`RPCService.js`: `batchRequest`) -/

/-- The per-item push loop in its non-throwing normal form: each item's
outcome under `f` is appended to the success list or, paired with its item,
to the error list. This is exactly the worker's per-task loop in
`dataWorker.js`, and the behaviour of `batchRequest`'s `forEach` on a chunk
in which no callback throws. -/
def collectOutcomes (f : ι → Except ε ν) (acc : List ν × List (ι × ε)) :
    List ι → List ν × List (ι × ε)
  | [] => acc
  | i :: is =>
    match f i with
    | .ok v => collectOutcomes f (acc.1 ++ [v], acc.2) is
    | .error e => collectOutcomes f (acc.1, acc.2 ++ [(i, e)]) is

/-- The items of `l` on which `f` succeeds, in order, with their values. -/
def okList (f : ι → Except ε ν) (l : List ι) : List ν :=
  l.filterMap (fun i => (f i).toOption)

/-- The items of `l` on which `f` fails, in order, paired with their errors. -/
def errList (f : ι → Except ε ν) (l : List ι) : List (ι × ε) :=
  l.filterMap (fun i =>
    match f i with
    | .error e => some (i, e)
    | .ok _ => none)

theorem collectOutcomes_spec (f : ι → Except ε ν) :
    ∀ (l : List ι) (acc : List ν × List (ι × ε)),
      collectOutcomes f acc l = (acc.1 ++ okList f l, acc.2 ++ errList f l)
  | [], acc => by simp [collectOutcomes, okList, errList]
  | i :: is, acc => by
    cases hfi : f i <;>
      simp [collectOutcomes, hfi, collectOutcomes_spec f is, okList, errList,
        List.filterMap_cons, Except.toOption]

theorem okList_errList_length (f : ι → Except ε ν) :
    ∀ l : List ι, (okList f l).length + (errList f l).length = l.length
  | [] => rfl
  | i :: is => by
    have := okList_errList_length f is
    cases hfi : f i <;>
      simp [okList, errList, hfi, List.filterMap_cons, Except.toOption] at * <;>
      omega

/-- Consecutive chunks of `sizePred + 1` elements: the slices
`items.slice(i, i + batchSize)` taken by the chunking loop of `batchRequest`,
for `batchSize = sizePred + 1`. -/
def chunkify (sizePred : Nat) : List ι → List (List ι)
  | [] => []
  | x :: xs => ((x :: xs).take (sizePred + 1)) :: chunkify sizePred ((x :: xs).drop (sizePred + 1))
termination_by l => l.length
decreasing_by simp [List.length_drop]; omega

/-- The chunking loop of `batchRequest` for a given `batchSize`. The JS loop
does not terminate when `batchSize = 0`, so the embedding is stated for
positive `batchSize` (`chunks 0` is given the arbitrary value `[]`). -/
def chunks (batchSize : Nat) (l : List ι) : List (List ι) :=
  match batchSize with
  | 0 => []
  | b + 1 => chunkify b l

theorem chunkify_flatten (sizePred : Nat) : ∀ l : List ι, (chunkify sizePred l).flatten = l
  | [] => by simp [chunkify]
  | x :: xs => by
    rw [chunkify]
    simp only [List.flatten_cons]
    rw [chunkify_flatten sizePred ((x :: xs).drop (sizePred + 1))]
    exact List.take_append_drop _ _
termination_by l => l.length
decreasing_by simp [List.length_drop]; omega

/-- The `{results, errors, success, failed}` record returned by
`batchRequest`. -/
structure BatchOut (ι ε ν : Type) where
  results : List ν
  errors : List (ι × ε)
  success : Nat
  failed : Nat
deriving DecidableEq, Repr

/-- The message of the `TypeError` raised by evaluating `result.error` when
a settled batch result is `null`. -/
def typeErrorMessage : String := "Cannot read properties of null (reading 'error')"

/-- One run of `batchResults.forEach` over a chunk's settled outcomes (each
item's `executeRequestWithRetry(method, item)` with its attached
`.catch(error => ({error, item}))`, given by the oracle `f`): a caught
rejection is the wrapper `{error, item}`, whose truthy `error` property sends
it to `errors`; a non-null success value has no `error` property
(`result.error` is `undefined`, falsy) and is pushed to `results`; a `null`
success value makes `result.error` throw a `TypeError`, which aborts the
loop — pushes already made are retained. Result components: (accumulated
lists, whether the callback threw). -/
def forEachPass (f : ι → Except String JsVal) (acc : List JsVal × List (ι × String)) :
    List ι → (List JsVal × List (ι × String)) × Bool
  | [] => (acc, false)
  | i :: is =>
    match f i with
    | .error e => forEachPass f (acc.1, acc.2 ++ [(i, e)]) is
    | .ok (.vobj d) => forEachPass f (acc.1 ++ [.vobj d], acc.2) is
    | .ok .vnull => (acc, true)

/-- The inner `processBatch(batch, retryCount)` of `batchRequest`: run the
collection pass; if its `forEach` threw, the catch block re-runs the whole
chunk (re-executing every item and re-pushing their outcomes into the shared
arrays) while `retryCount < 3`, and on the final failure pushes every item
of the chunk into `errors` with the thrown error's message. -/
def processBatchJS (f : ι → Except String JsVal) (chunk : List ι)
    (acc : List JsVal × List (ι × String)) (retryCount : Nat) :
    List JsVal × List (ι × String) :=
  let p := forEachPass f acc chunk
  if p.2 then
    if hrc : retryCount < 3 then
      processBatchJS f chunk p.1 (retryCount + 1)
    else
      (p.1.1, p.1.2 ++ chunk.map (fun i => (i, typeErrorMessage)))
  else
    p.1
termination_by 4 - retryCount
decreasing_by omega

/-- `batchRequest(method, items, batchSize)`: the items are chunked and each
chunk is handed to `processBatch` with `retryCount = 0`, accumulating into
the shared `results`/`errors` arrays; the final record carries
`success = results.length` and `failed = errors.length`. -/
def batchRequest (f : ι → Except String JsVal) (items : List ι) (batchSize : Nat) :
    BatchOut ι String JsVal :=
  let folded := (chunks batchSize items).foldl
    (fun acc chunk => processBatchJS f chunk acc 0) ([], [])
  ⟨folded.1, folded.2, folded.1.length, folded.2.length⟩

theorem forEachPass_no_null (f : ι → Except String JsVal) :
    ∀ (l : List ι) (acc : List JsVal × List (ι × String)),
      (∀ i ∈ l, f i ≠ .ok .vnull) →
      forEachPass f acc l = (collectOutcomes f acc l, false)
  | [], acc, _ => by simp [forEachPass, collectOutcomes]
  | i :: is, acc, hnn => by
    have hrest := forEachPass_no_null f is
    cases hfi : f i with
    | error e =>
      simp [forEachPass, collectOutcomes, hfi,
        hrest _ (fun j hj => hnn j (List.mem_cons_of_mem _ hj))]
    | ok v =>
      cases v with
      | vnull => exact absurd hfi (hnn i (List.mem_cons_self ..))
      | vobj d =>
        simp [forEachPass, collectOutcomes, hfi,
          hrest _ (fun j hj => hnn j (List.mem_cons_of_mem _ hj))]

theorem processBatchJS_no_null (f : ι → Except String JsVal)
    (chunk : List ι) (acc : List JsVal × List (ι × String)) (retryCount : Nat)
    (hnn : ∀ i ∈ chunk, f i ≠ .ok .vnull) :
    processBatchJS f chunk acc retryCount = collectOutcomes f acc chunk := by
  rw [processBatchJS, forEachPass_no_null f chunk acc hnn]
  simp

theorem foldChunksJS_spec (f : ι → Except String JsVal) :
    ∀ (cs : List (List ι)) (acc : List JsVal × List (ι × String)),
      (∀ i ∈ cs.flatten, f i ≠ .ok .vnull) →
      cs.foldl (fun a c => processBatchJS f c a 0) acc =
        (acc.1 ++ okList f cs.flatten, acc.2 ++ errList f cs.flatten)
  | [], acc, _ => by simp [okList, errList]
  | c :: cs, acc, hnn => by
    have hc : ∀ i ∈ c, f i ≠ .ok .vnull := fun i hi =>
      hnn i (by rw [List.flatten_cons]; exact List.mem_append_left _ hi)
    have hcs : ∀ i ∈ cs.flatten, f i ≠ .ok .vnull := fun i hi =>
      hnn i (by rw [List.flatten_cons]; exact List.mem_append_right _ hi)
    simp only [List.foldl_cons, List.flatten_cons]
    rw [processBatchJS_no_null f c acc 0 hc, collectOutcomes_spec,
      foldChunksJS_spec f cs _ hcs]
    simp [okList, errList, List.filterMap_append, List.append_assoc]

/-- Per-item outcomes of the spec example: `sigB` fails, the others succeed
with non-null transaction objects (`txA` modelled as `vobj 1`, `txC` as
`vobj 2`). -/
def exOutcome : String → Except String JsVal := fun s =>
  if s = "sigA" then .ok (.vobj 1)
  else if s = "sigC" then .ok (.vobj 2)
  else .error "fetch failed"

/-- Per-item outcomes for the C4 counterexample: `sigOK` resolves to an
object, `sigNull` resolves to `null` — as `getTransaction` does for an
unknown signature. -/
def nullOutcome : String → Except String JsVal := fun s =>
  if s = "sigOK" then .ok (.vobj 1) else .ok .vnull

/-- C4 counterexample: `batchRequest` over two items, `sigOK` (an object) and
`sigNull` (a `null` success), in one chunk: each collection pass pushes
`sigOK`'s value and then throws a `TypeError` on `null.error`; the catch path
re-runs the chunk three times, duplicating the already-pushed result, and
finally records both items as errors. The output has `success = 4` and
`failed = 2` for two items, so `results`/`errors` is not a partition of the
items' outcomes and `success + failed ≠ items.length`, refuting the claim as
stated. -/
theorem C4_counterexample :
    batchRequest nullOutcome ["sigOK", "sigNull"] 10 =
      ⟨[.vobj 1, .vobj 1, .vobj 1, .vobj 1],
        [("sigOK", typeErrorMessage), ("sigNull", typeErrorMessage)], 4, 2⟩ ∧
    4 + 2 ≠ (["sigOK", "sigNull"] : List String).length := by
  refine ⟨?_, by decide⟩
  simp [batchRequest, chunks, chunkify, processBatchJS, forEachPass, nullOutcome,
    typeErrorMessage]

/-- C4 amended: for every positive `batchSize`, provided every successful
per-item value is non-null, `batchRequest` returns the complete partition of
the items' outcomes — `results` holds exactly the successful values in item
order, `errors` exactly the failing items paired with their errors (each
captured per item, never thrown to the caller), `success = results.length`,
`failed = errors.length`, and `success + failed = items.length` — and on the
spec's example the chunks are `[sigA, sigB]` then `[sigC]` and the output is
`{results: [txA, txC], errors: [{item: sigB, error}], success: 2, failed: 1}`.
(A `null` success value instead makes the collection loop throw, the chunk is
re-run and the partition breaks: see the counterexample.) -/
theorem C4_batch_partition :
    (∀ (ι : Type) (f : ι → Except String JsVal) (items : List ι) (batchSize : Nat),
      0 < batchSize →
      (∀ i ∈ items, f i ≠ .ok .vnull) →
      batchRequest f items batchSize =
        ⟨okList f items, errList f items, (okList f items).length, (errList f items).length⟩ ∧
      (okList f items).length + (errList f items).length = items.length) ∧
    chunks 2 ["sigA", "sigB", "sigC"] = [["sigA", "sigB"], ["sigC"]] ∧
    batchRequest exOutcome ["sigA", "sigB", "sigC"] 2 =
      ⟨[.vobj 1, .vobj 2], [("sigB", "fetch failed")], 2, 1⟩ := by
  have hmain : ∀ (ι : Type) (f : ι → Except String JsVal) (items : List ι) (batchSize : Nat),
      0 < batchSize →
      (∀ i ∈ items, f i ≠ .ok .vnull) →
      batchRequest f items batchSize =
        ⟨okList f items, errList f items, (okList f items).length, (errList f items).length⟩ := by
    intro ι f items batchSize hb hnn
    obtain ⟨b, rfl⟩ : ∃ b, batchSize = b + 1 := ⟨batchSize - 1, by omega⟩
    have hnnf : ∀ i ∈ (chunkify b items).flatten, f i ≠ .ok .vnull := by
      rw [chunkify_flatten]
      exact hnn
    simp only [batchRequest, chunks]
    rw [foldChunksJS_spec f (chunkify b items) ([], []) hnnf]
    simp [chunkify_flatten]
  have hchunks : chunks 2 ["sigA", "sigB", "sigC"] = [["sigA", "sigB"], ["sigC"]] := by
    simp [chunks, chunkify]
  refine ⟨fun ι f items batchSize hb hnn =>
      ⟨hmain ι f items batchSize hb hnn, okList_errList_length f items⟩,
    hchunks, ?_⟩
  rw [hmain String exOutcome ["sigA", "sigB", "sigC"] 2 (by omega) (by decide)]
  simp [okList, errList, exOutcome, List.filterMap_cons, Except.toOption]

/-- Witness for C4 amended, applying the universally quantified part at the
example outcomes. -/
theorem C4_batch_partition_witness :
    batchRequest exOutcome ["sigA", "sigB", "sigC"] 2 =
      ⟨okList exOutcome ["sigA", "sigB", "sigC"], errList exOutcome ["sigA", "sigB", "sigC"],
        (okList exOutcome ["sigA", "sigB", "sigC"]).length,
        (errList exOutcome ["sigA", "sigB", "sigC"]).length⟩ :=
  (C4_batch_partition.1 String exOutcome ["sigA", "sigB", "sigC"] 2
    (by omega) (by decide)).1

/-! ## Worker pool (`BatchService.js`: worker pool setup and `_handleWorkerError`) -/

/-- One entry of `this.workerPool`: the worker handle (identified by a
numeric id, since JS compares handles by object identity) and the busy flag. -/
structure WorkerSlot where
  workerId : Nat
  isBusy : Bool
deriving DecidableEq, Repr

/-- The body of `_handleWorkerError(worker, error)` as written: look up the
first argument's `.worker` property (`argWorkerField`; `none` models
`undefined`), find the pool slot whose handle is strictly equal to it, and
replace that slot in place with a fresh worker marked idle. When `findIndex`
returns `-1` nothing is replaced; the `worker.isBusy = false` assignment
mutates only the argument object, which is a pool slot exactly when the
lookup succeeds, so the replacement covers it. -/
def handleWorkerError (pool : List WorkerSlot) (argWorkerField : Option Nat)
    (freshId : Nat) : List WorkerSlot :=
  match List.findIdx? (fun w => some w.workerId == argWorkerField) pool with
  | some i => pool.set i ⟨freshId, false⟩
  | none => pool

/-- What actually happens when a pooled worker emits an `error` event: the
handler was registered as `worker.on('error', this._handleWorkerError.bind(this))`,
and Node's `error` event passes a single argument — the `Error` object — so
`_handleWorkerError` receives the `Error` as its `worker` parameter. An
`Error` has no `.worker` property, so the field lookup yields `undefined`. -/
def workerErrorEvent (pool : List WorkerSlot) (freshId : Nat) : List WorkerSlot :=
  handleWorkerError pool none freshId

theorem findIdx?_none_of_arg_none (pool : List WorkerSlot) :
    List.findIdx? (fun w => some w.workerId == (none : Option Nat)) pool = none := by
  induction pool with
  | nil => rfl
  | cons w ws ih => simp [List.findIdx?_cons, ih]

/-- C8: when a worker raises an error, the pool is left exactly as it was —
`worker.worker` is `undefined` on the received `Error`, `findIndex` can never
match a real handle against `undefined`, so no slot is located, none is
marked idle, and no replacement worker is installed; a busy crashed slot
stays busy forever and usable capacity shrinks, contrary to the claim. -/
theorem C8_worker_error_leaves_pool_unchanged
    (pool : List WorkerSlot) (freshId : Nat) :
    workerErrorEvent pool freshId = pool := by
  unfold workerErrorEvent handleWorkerError
  rw [findIdx?_none_of_arg_none pool]

/-! ## Data worker (`dataWorker.js`: message handler and `processTask`) -/

/-- A task `{type, data}`; the payload is abstracted to a number. -/
structure Task where
  type : String
  data : Nat
deriving DecidableEq, Repr

/-- The task-type tags `processTask` dispatches on. -/
def knownTaskTypes : List String :=
  ["wallet_analysis", "transaction_processing", "token_metrics"]

/-- `processTask(task)`: dispatch on `task.type` to the corresponding
handler; an unknown type throws `Unknown task type: <type>`. The handler
bodies (`analyzeWallet`, `processTransaction`, `calculateTokenMetrics`) are
elided in the source (`// 具体的处理函数实现...`); modelled from the spec:
§4.9 dispatches each known tag "to the corresponding handler", so the three
handlers are abstract total functions passed as parameters. -/
def processTask (analyzeWallet processTransaction calculateTokenMetrics : Nat → Nat)
    (task : Task) : Except String Nat :=
  if task.type = "wallet_analysis" then
    .ok (analyzeWallet task.data)
  else if task.type = "transaction_processing" then
    .ok (processTransaction task.data)
  else if task.type = "token_metrics" then
    .ok (calculateTokenMetrics task.data)
  else
    .error ("Unknown task type: " ++ task.type)

/-- The `{successes, errors}` record a worker posts back for a batch. -/
structure WorkerResult where
  successes : List Nat
  errors : List (Task × String)
deriving DecidableEq, Repr

/-- The worker's `parentPort` message handler: process each task of the
batch in order, pushing results into `successes` and caught per-task errors
(paired with the originating task) into `errors`. -/
def handleBatchMessage (h1 h2 h3 : Nat → Nat) (batch : List Task) : WorkerResult :=
  let acc := collectOutcomes (processTask h1 h2 h3) ([], []) batch
  ⟨acc.1, acc.2⟩

theorem processTask_isOk (h1 h2 h3 : Nat → Nat) (task : Task) :
    (processTask h1 h2 h3 task).isOk = List.contains knownTaskTypes task.type := by
  simp only [processTask, knownTaskTypes]
  by_cases hw : task.type = "wallet_analysis"
  · simp [hw, Except.isOk, Except.toBool]
  · by_cases ht : task.type = "transaction_processing"
    · simp [hw, ht, Except.isOk, Except.toBool]
    · by_cases hk : task.type = "token_metrics"
      · simp [hw, ht, hk, Except.isOk, Except.toBool]
      · simp [hw, ht, hk, Except.isOk, Except.toBool, List.contains_cons]

theorem okList_length_countP (f : ι → Except ε ν) :
    ∀ l : List ι, (okList f l).length = l.countP (fun i => (f i).isOk)
  | [] => rfl
  | i :: is => by
    have := okList_length_countP f is
    cases hfi : f i <;>
      simp [okList, hfi, List.filterMap_cons, List.countP_cons, Except.toOption,
        Except.isOk, Except.toBool] at * <;>
      omega

theorem errList_length_countP (f : ι → Except ε ν) :
    ∀ l : List ι, (errList f l).length = l.countP (fun i => !(f i).isOk)
  | [] => rfl
  | i :: is => by
    have := errList_length_countP f is
    cases hfi : f i <;>
      simp [errList, hfi, List.filterMap_cons, List.countP_cons, Except.isOk,
        Except.toBool] at * <;>
      omega

theorem countP_not_add_countP (p : ι → Bool) :
    ∀ l : List ι, l.countP (fun i => !(p i)) + l.countP p = l.length
  | [] => rfl
  | i :: is => by
    have := countP_not_add_countP p is
    cases hpi : p i <;> simp [List.countP_cons, hpi] <;> omega

theorem errList_mem (f : ι → Except ε ν) (l : List ι) (pr : ι × ε)
    (hmem : pr ∈ errList f l) : pr.1 ∈ l ∧ f pr.1 = .error pr.2 := by
  simp only [errList, List.mem_filterMap] at hmem
  obtain ⟨i, hil, hi⟩ := hmem
  cases hfi : f i <;> rw [hfi] at hi
  · cases hi
    exact ⟨hil, hfi⟩
  · cases hi

/-- C9: for any handlers and any batch of `N` tasks of which exactly `k`
carry a type tag outside `knownTaskTypes`, the worker's result has exactly
`N - k` successes and exactly `k` errors; each error entry pairs its
originating task (a task of the batch, with an unknown tag) with the message
`Unknown task type: <type>`; unknown types never fail the batch as a whole —
the handler always produces a complete `{successes, errors}` record. -/
theorem C9_unknown_task_types
    (h1 h2 h3 : Nat → Nat) (batch : List Task) :
    (handleBatchMessage h1 h2 h3 batch).successes.length =
      batch.length - batch.countP (fun t => !(List.contains knownTaskTypes t.type)) ∧
    (handleBatchMessage h1 h2 h3 batch).errors.length =
      batch.countP (fun t => !(List.contains knownTaskTypes t.type)) ∧
    (∀ pr ∈ (handleBatchMessage h1 h2 h3 batch).errors,
      pr.1 ∈ batch ∧
      List.contains knownTaskTypes pr.1.type = false ∧
      pr.2 = "Unknown task type: " ++ pr.1.type) := by
  have hok : (handleBatchMessage h1 h2 h3 batch).successes =
      okList (processTask h1 h2 h3) batch := by
    simp [handleBatchMessage, collectOutcomes_spec]
  have herr : (handleBatchMessage h1 h2 h3 batch).errors =
      errList (processTask h1 h2 h3) batch := by
    simp [handleBatchMessage, collectOutcomes_spec]
  refine ⟨?_, ?_, ?_⟩
  · rw [hok, okList_length_countP]
    have h1c : batch.countP (fun t => ((processTask h1 h2 h3 t).isOk : Bool)) =
        batch.countP (fun t => List.contains knownTaskTypes t.type) := by
      apply List.countP_congr
      intro t _
      simp [processTask_isOk]
    rw [h1c]
    have h2c := countP_not_add_countP (fun t => List.contains knownTaskTypes t.type) batch
    omega
  · rw [herr, errList_length_countP]
    apply List.countP_congr
    intro t _
    simp [processTask_isOk]
  · intro pr hpr
    rw [herr] at hpr
    obtain ⟨hmem, herrp⟩ := errList_mem _ _ _ hpr
    refine ⟨hmem, ?_, ?_⟩
    · by_contra hcon
      have hk : List.contains knownTaskTypes pr.1.type = true := by
        cases hkk : List.contains knownTaskTypes pr.1.type
        · exact absurd hkk hcon
        · rfl
      have := processTask_isOk h1 h2 h3 pr.1
      rw [herrp, hk] at this
      simp [Except.isOk, Except.toBool] at this
    · have hn : List.contains knownTaskTypes pr.1.type = false := by
        cases hkk : List.contains knownTaskTypes pr.1.type
        · rfl
        · have := processTask_isOk h1 h2 h3 pr.1
          rw [herrp, hkk] at this
          simp [Except.isOk, Except.toBool] at this
      simp only [processTask, knownTaskTypes] at herrp
      have hw : pr.1.type ≠ "wallet_analysis" := by
        intro hcon
        simp [knownTaskTypes, hcon] at hn
      have ht : pr.1.type ≠ "transaction_processing" := by
        intro hcon
        simp [knownTaskTypes, hcon] at hn
      have hk : pr.1.type ≠ "token_metrics" := by
        intro hcon
        simp [knownTaskTypes, hcon] at hn
      rw [if_neg hw, if_neg ht, if_neg hk] at herrp
      exact (Except.error.injEq .. ▸ herrp).symm

/-- Witness for C9 on a concrete two-task batch with one unknown tag. -/
theorem C9_unknown_task_types_witness :
    (handleBatchMessage id id id [⟨"wallet_analysis", 1⟩, ⟨"bogus", 2⟩]).successes.length = 1 ∧
    (handleBatchMessage id id id [⟨"wallet_analysis", 1⟩, ⟨"bogus", 2⟩]).errors.length = 1 :=
  have h := C9_unknown_task_types id id id [⟨"wallet_analysis", 1⟩, ⟨"bogus", 2⟩]
  ⟨by rw [h.1]; decide, by rw [h.2.1]; decide⟩

/-! ## Metrics (`RPCService.js`: constructor `metrics`, `_updateMetrics`,
the `executeRequest` error path, `getDetailedMetrics`) -/

/-- One entry of `metrics.methodStats`. -/
structure MethodStat where
  count : Nat
  errors : Nat
  avgTime : ℚ
deriving DecidableEq, Repr

/-- The `this.metrics` object. Averages are exact rationals here; the claims
proved about this structure concern only the integer counters, which JS
represents exactly. -/
structure Metrics where
  requestCount : Nat
  errorCount : Nat
  avgResponseTime : ℚ
  responseTimeHistogram : List (Nat × Nat)
  methodStats : List (String × MethodStat)
  lastMinuteRequests : List (Nat × String × Nat × Bool)
  circuitBreakerTrips : Nat
  cacheHits : Nat
  cacheMisses : Nat
deriving DecidableEq, Repr

/-- The `metrics` object built by the constructor: all counters 0, maps and
lists empty. -/
def Metrics.init : Metrics := ⟨0, 0, 0, [], [], [], 0, 0, 0⟩

/-- `this.metrics.responseTimeHistogram.set(range, (get(range) || 0) + 1)`. -/
def histIncr (h : List (Nat × Nat)) (bucket : Nat) : List (Nat × Nat) :=
  match List.lookup bucket h with
  | some n => h.map (fun kv => if kv.1 = bucket then (bucket, n + 1) else kv)
  | none => h ++ [(bucket, 1)]

/-- The per-method statistics update of `_updateMetrics`: insert a zero entry
when the method is new, then bump `count`, `errors` and the running average. -/
def methodStatsUpdate (stats : List (String × MethodStat)) (method : String)
    (responseTime : Nat) (isError : Bool) : List (String × MethodStat) :=
  let base : MethodStat :=
    match List.lookup method stats with
    | some st => st
    | none => ⟨0, 0, 0⟩
  let count := base.count + 1
  let newStat : MethodStat :=
    ⟨count,
     if isError then base.errors + 1 else base.errors,
     (base.avgTime * ((count : ℚ) - 1) + (responseTime : ℚ)) / (count : ℚ)⟩
  match List.lookup method stats with
  | some _ => stats.map (fun kv => if kv.1 = method then (method, newStat) else kv)
  | none => stats ++ [(method, newStat)]

/-- `_updateMetrics(method, responseTime, isError = false)`. -/
def updateMetrics (m : Metrics) (now : Nat) (method : String) (responseTime : Nat)
    (isError : Bool) : Metrics :=
  let requestCount := m.requestCount + 1
  { m with
    requestCount := requestCount
    errorCount := if isError then m.errorCount + 1 else m.errorCount
    avgResponseTime :=
      (m.avgResponseTime * ((requestCount : ℚ) - 1) + (responseTime : ℚ)) / (requestCount : ℚ)
    responseTimeHistogram := histIncr m.responseTimeHistogram (responseTime / 100 * 100)
    methodStats := methodStatsUpdate m.methodStats method responseTime isError
    lastMinuteRequests :=
      (m.lastMinuteRequests.filter (fun r => now - r.1 < 60000)) ++
        [(now, method, responseTime, isError)] }

/-- The service state the metrics claims range over. -/
structure CoreState where
  cache : CacheMap
  metrics : Metrics
  breaker : CircuitBreaker

/-- Constructor state: empty cache, zeroed metrics, closed breaker. -/
def CoreState.init : CoreState := ⟨[], Metrics.init, CircuitBreaker.init⟩

/-- The operations of the core that touch `this.metrics`, `this.cache` or the
breaker: the `executeRequest` success path (`_updateMetrics` with the default
`isError = false`, cited lines 146-157), the `executeRequest` catch path
(`metrics.errorCount++` and `_updateCircuitBreaker`), bare `_getCachedData` /
`_setCacheData`, and the cached `getBlock`/`getTransaction` path whose live
branch goes through `executeRequest`. -/
inductive CoreOp where
  | execSuccess (method : String) (responseTime now : Nat)
  | execFailure (now : Nat)
  | cacheRead (key : String) (now : Nat)
  | cacheWrite (key : String) (v : JsVal) (now : Nat)
  | fetchCached (keyTag arg method : String) (now responseTime : Nat)
      (live : Except String JsVal)

/-- State transition of each operation. -/
def applyOp (s : CoreState) : CoreOp → CoreState
  | .execSuccess method responseTime now =>
    { s with metrics := updateMetrics s.metrics now method responseTime false }
  | .execFailure now =>
    { s with
      metrics := { s.metrics with errorCount := s.metrics.errorCount + 1 }
      breaker := updateCircuitBreaker s.breaker now }
  | .cacheRead _ _ => s
  | .cacheWrite key v now => { s with cache := cacheSet s.cache key v now }
  | .fetchCached keyTag arg method now responseTime live =>
    let out := cachedFetch s.cache keyTag arg now live
    if out.2.2 then
      match live with
      | .ok _ =>
        { s with
          cache := out.2.1
          metrics := updateMetrics s.metrics now method responseTime false }
      | .error _ =>
        { s with
          cache := out.2.1
          metrics := { s.metrics with errorCount := s.metrics.errorCount + 1 }
          breaker := updateCircuitBreaker s.breaker now }
    else
      { s with cache := out.2.1 }

/-- A whole run of the service as a sequence of operations. -/
def applyOps (s : CoreState) (ops : List CoreOp) : CoreState :=
  ops.foldl applyOp s

/-- The numerator and denominator of the `cacheHitRate` field computed by
`getDetailedMetrics()`: `cacheHits / (cacheHits + cacheMisses)` (a JS
floating-point division, which on `0 / 0` yields `NaN`). -/
def cacheHitRateFraction (m : Metrics) : Nat × Nat :=
  (m.cacheHits, m.cacheHits + m.cacheMisses)

theorem applyOp_cache_counters (s : CoreState) (op : CoreOp) :
    (applyOp s op).metrics.cacheHits = s.metrics.cacheHits ∧
    (applyOp s op).metrics.cacheMisses = s.metrics.cacheMisses := by
  cases op with
  | execSuccess method responseTime now => simp [applyOp, updateMetrics]
  | execFailure now => simp [applyOp]
  | cacheRead key now => simp [applyOp]
  | cacheWrite key v now => simp [applyOp]
  | fetchCached keyTag arg method now responseTime live =>
    cases live <;>
      simp only [applyOp] <;>
      split <;>
      simp [updateMetrics]

/-- C10: no operation of the core ever writes `metrics.cacheHits` or
`metrics.cacheMisses` — after any sequence of operations from the
constructor state both counters still hold their initial value 0 — so the
`cacheHitRate` reported by `getDetailedMetrics()` is the quotient of 0 by 0
(`NaN` in JS) and never reflects cache hits actually served. -/
theorem C10_cache_hit_rate_never_written (ops : List CoreOp) :
    (applyOps CoreState.init ops).metrics.cacheHits = 0 ∧
    (applyOps CoreState.init ops).metrics.cacheMisses = 0 ∧
    cacheHitRateFraction (applyOps CoreState.init ops).metrics = (0, 0) := by
  have main : ∀ (l : List CoreOp) (s : CoreState),
      (applyOps s l).metrics.cacheHits = s.metrics.cacheHits ∧
      (applyOps s l).metrics.cacheMisses = s.metrics.cacheMisses := by
    intro l
    induction l with
    | nil => exact fun s => ⟨rfl, rfl⟩
    | cons op rest ih =>
      intro s
      have h1 := applyOp_cache_counters s op
      have h2 := ih (applyOp s op)
      simp only [applyOps, List.foldl_cons] at h2 ⊢
      exact ⟨h2.1.trans h1.1, h2.2.trans h1.2⟩
  obtain ⟨h1, h2⟩ := main ops CoreState.init
  have hz1 : (applyOps CoreState.init ops).metrics.cacheHits = 0 := by
    rw [h1]; rfl
  have hz2 : (applyOps CoreState.init ops).metrics.cacheMisses = 0 := by
    rw [h2]; rfl
  exact ⟨hz1, hz2, by simp [cacheHitRateFraction, hz1, hz2]⟩

end Solbot
